import Mathlib

/-!
Shallow embedding of the anki-backup-tool repository for specification
verification.

Source layout embedded here:
- src/crates/core/src/backup.rs       : data model (BackupEntry and friends)
- src/crates/storage/src/repository.rs: BackupRepository (run_once, rollback_to,
  prune_created_older_than_days, get_backup, last_created_hash, extract_stats,
  parse_deck_names, parse_uuid/parse_ts/parse_status, format_timestamp_dir)
- src/crates/storage/src/sqlite_store.rs : row_to_entry and the identical SQL
  queries (shared model with repository.rs, whose inline SQL is the same)
- src/crates/sync/src/lib.rs          : sync_request redirect handling

Modelling conventions:
- Machine integers (i64) are Lean Int; row counts are Nat where the source
  produces a COUNT(*).
- Instants (chrono DateTime of Utc) are Int epoch nanoseconds. The source
  stores created_at as an RFC 3339 string and compares those strings in SQL;
  for the strings produced by chrono to_rfc3339 on instants of the same era,
  lexicographic string order agrees with instant order, so the model compares
  the Int directly.
- Uuid is modelled as Nat (the 128-bit value); Uuid new_v4 freshness is
  modelled by a counter threaded through the repository state.
- The SQLite backups table is a Lean List in insertion (rowid) order.
- Fallible Rust code returns Except String.
-/

namespace AnkiBackup

/-! ## Decimal rendering and timestamp directory names

Models chrono to_rfc3339_opts(SecondsFormat::Secs, true) followed by
replace(':', "-") — repository.rs format_timestamp_dir (lines 412-415). -/

/-- Civil UTC date-time fields as chrono exposes them for formatting.
The year is Int (chrono supports negative and five-digit years); the other
fields are the nonnegative values produced by the civil-from-days algorithm. -/
structure UtcDateTime where
  year : Int
  month : Nat
  day : Nat
  hour : Nat
  minute : Nat
  second : Nat
deriving DecidableEq, Repr

/-- Decimal digit character for a single digit value. -/
def digitChar : Nat → Char
  | 0 => '0'
  | 1 => '1'
  | 2 => '2'
  | 3 => '3'
  | 4 => '4'
  | 5 => '5'
  | 6 => '6'
  | 7 => '7'
  | 8 => '8'
  | 9 => '9'
  | _ => '*'

/-- Accumulator loop for decimal rendering; the fuel bounds the digit count
and is structural so the kernel can evaluate it. -/
def natDigitsGo : Nat → Nat → List Char → List Char
  | 0, _, acc => acc
  | fuel + 1, n, acc =>
      if n < 10 then digitChar n :: acc
      else natDigitsGo fuel (n / 10) (digitChar (n % 10) :: acc)

/-- Decimal digits of a natural number, most significant first. -/
def natDigits (n : Nat) : List Char := natDigitsGo (n + 1) n []

/-- Left-pad the decimal rendering of a natural number with zeros to width w. -/
def padNat (w : Nat) (n : Nat) : List Char :=
  List.replicate (w - (natDigits n).length) '0' ++ natDigits n

/-- Year rendering of the chrono RFC 3339 writer: years 0..=9999 print as four
padded digits; years outside that range print with an explicit sign (the
Display form with sign and minimum width five). -/
def yearChars (y : Int) : List Char :=
  if 0 ≤ y ∧ y ≤ 9999 then padNat 4 y.toNat
  else if y < 0 then '-' :: padNat 4 y.natAbs
  else '+' :: padNat 4 y.toNat

/-- Characters of to_rfc3339_opts(SecondsFormat::Secs, true): seconds
precision, Z suffix. -/
def rfc3339SecsChars (dt : UtcDateTime) : List Char :=
  yearChars dt.year ++ '-' :: padNat 2 dt.month ++ '-' :: padNat 2 dt.day
    ++ 'T' :: padNat 2 dt.hour ++ ':' :: padNat 2 dt.minute
    ++ ':' :: padNat 2 dt.second ++ ['Z']

/-- Model of format_timestamp_dir (repository.rs lines 412-415):
now.to_rfc3339_opts(SecondsFormat::Secs, true).replace(':', "-"). -/
def format_timestamp_dir (dt : UtcDateTime) : String :=
  String.mk ((rfc3339SecsChars dt).map (fun c => if c = ':' then '-' else c))

/-- Civil date from a day count since 1970-01-01 (proleptic Gregorian), the
standard era-based algorithm chrono implements. Returns (year, month, day). -/
def civilFromDays (z0 : Int) : Int × Nat × Nat :=
  let z := z0 + 719468
  let era := Int.fdiv z 146097
  let doe := z - era * 146097
  let yoe := Int.fdiv (doe - Int.fdiv doe 1460 + Int.fdiv doe 36524 - Int.fdiv doe 146096) 365
  let y := yoe + era * 400
  let doy := doe - (365 * yoe + Int.fdiv yoe 4 - Int.fdiv yoe 100)
  let mp := Int.fdiv (5 * doy + 2) 153
  let d := doy - Int.fdiv (153 * mp + 2) 5 + 1
  let m := if mp < 10 then mp + 3 else mp - 9
  (y + (if m ≤ 2 then 1 else 0), m.toNat, d.toNat)

/-- Civil UTC fields of an epoch-nanosecond instant (chrono truncates the
fraction for SecondsFormat::Secs). -/
def epochToUtc (nanos : Int) : UtcDateTime :=
  let secs := Int.fdiv nanos 1000000000
  let days := Int.fdiv secs 86400
  let daySecs := (secs - days * 86400).toNat
  let ymd := civilFromDays days
  { year := ymd.1, month := ymd.2.1, day := ymd.2.2,
    hour := daySecs / 3600, minute := daySecs % 3600 / 60, second := daySecs % 60 }

/-! ## Core data model (src/crates/core/src/backup.rs) -/

/-- Uuid modelled as its 128-bit value; new_v4 randomness is modelled by a
fresh counter in the repository state. -/
abbrev Uuid := Nat

/-- Uuid nil value (all zero), the fallback of parse_uuid. -/
def Uuid.nilValue : Uuid := 0

/-- Backup status (backup.rs lines 5-9). -/
inductive BackupStatus where
  | Created
  | Skipped
deriving DecidableEq, Repr

/-- Skip reason (backup.rs lines 11-14). -/
inductive BackupSkipReason where
  | Unchanged
deriving DecidableEq, Repr

/-- Per-deck statistics (backup.rs lines 25-30). -/
structure DeckStats where
  deck_id : Int
  deck_name : String
  card_count : Int
deriving DecidableEq, Repr

/-- Collection statistics (backup.rs lines 16-23). -/
structure BackupStats where
  total_cards : Int
  total_decks : Int
  total_notes : Int
  total_revlog : Int
  deck_stats : List DeckStats
deriving DecidableEq, Repr

/-- Persisted backup entry (backup.rs lines 32-44). created_at is epoch
nanoseconds (see module header). -/
structure BackupEntry where
  id : Uuid
  created_at : Int
  timestamp_dir : String
  content_hash : String
  status : BackupStatus
  skip_reason : Option BackupSkipReason
  source_revision : Option String
  sync_duration_ms : Option Int
  size_bytes : Int
  stats : Option BackupStats
deriving DecidableEq, Repr

/-- Entry under construction, before an id is assigned (backup.rs lines 46-57). -/
structure NewBackupEntry where
  created_at : Int
  timestamp_dir : String
  content_hash : String
  status : BackupStatus
  skip_reason : Option BackupSkipReason
  source_revision : Option String
  sync_duration_ms : Option Int
  size_bytes : Int
  stats : Option BackupStats
deriving DecidableEq, Repr

/-- NewBackupEntry::created (backup.rs lines 60-80). -/
def NewBackupEntry.created (created_at : Int) (timestamp_dir : String)
    (content_hash : String) (source_revision : Option String)
    (sync_duration_ms : Option Int) (size_bytes : Int)
    (stats : BackupStats) : NewBackupEntry :=
  { created_at := created_at
    timestamp_dir := timestamp_dir
    content_hash := content_hash
    status := BackupStatus.Created
    skip_reason := none
    source_revision := source_revision
    sync_duration_ms := sync_duration_ms
    size_bytes := size_bytes
    stats := some stats }

/-- NewBackupEntry::skipped_unchanged (backup.rs lines 82-94). -/
def NewBackupEntry.skipped_unchanged (created_at : Int)
    (content_hash : String) : NewBackupEntry :=
  { created_at := created_at
    timestamp_dir := ""
    content_hash := content_hash
    status := BackupStatus.Skipped
    skip_reason := some BackupSkipReason.Unchanged
    source_revision := none
    sync_duration_ms := none
    size_bytes := 0
    stats := none }

/-! ## Collection database and statistics extraction
(repository.rs extract_stats lines 316-351, parse_deck_names lines 353-368) -/

/-- Value of the decks column of the col table, as seen by serde_json.
notObject covers both invalid JSON and JSON whose top level is not an object
(both make parse_deck_names fail). For an object, each field is the key
string together with the value of its "name" member when that member is a
JSON string. -/
inductive DecksJson where
  | notObject
  | object : List (String × Option String) → DecksJson
deriving DecidableEq, Repr

/-- The on-disk collection SQLite file, abstracted to the queries
extract_stats issues. cards holds one did per row of the cards table; notes
and revlog are row counts; colDecks is the result of
SELECT decks FROM col LIMIT 1 (none when the query fails: no table or no
row); deckTable is the dedicated decks table of the modern schema when
present (extract_stats never queries it); sizeBytes is the file size
fs::metadata reports. -/
structure CollectionDb where
  cards : List Int
  notes : Nat
  revlog : Nat
  colDecks : Option DecksJson
  deckTable : Option (List (Int × String))
  sizeBytes : Int
deriving DecidableEq, Repr

/-- Model of Rust str::parse::<i64>: optional sign, one or more ASCII
digits, nothing else, result within the i64 range. -/
def parseI64 (s : String) : Option Int :=
  let split : Int × List Char :=
    match s.data with
    | '+' :: rest => (1, rest)
    | '-' :: rest => (-1, rest)
    | rest => (1, rest)
  let sign := split.1
  let digits := split.2
  if digits.isEmpty then none
  else if digits.all (fun c => decide ('0' ≤ c) && decide (c ≤ '9')) then
    let mag : Nat := digits.foldl (fun acc c => 10 * acc + (c.toNat - 48)) 0
    let v : Int := sign * (mag : Int)
    if -(2 ^ 63) ≤ v ∧ v ≤ 2 ^ 63 - 1 then some v else none
  else none

/-- Association-list overwrite insert, modelling HashMap::insert. -/
def assocSet {α β : Type} [DecidableEq α] : List (α × β) → α → β → List (α × β)
  | [], k, v => [(k, v)]
  | (k', v') :: rest, k, v =>
      if k' = k then (k, v) :: rest else (k', v') :: assocSet rest k v

/-- Association-list lookup (first match), modelling HashMap::get. -/
def assocGet {α β : Type} [DecidableEq α] : List (α × β) → α → Option β
  | [], _ => none
  | (k', v) :: rest, k => if k' = k then some v else assocGet rest k

/-- Boolean list membership by decidable equality (contains / exists). -/
def bmem {α : Type} [DecidableEq α] (l : List α) (x : α) : Bool :=
  l.any (fun y => decide (y = x))

/-- Model of parse_deck_names (repository.rs lines 353-368): fails unless the
value is a JSON object; collects the entries whose key parses as i64 and
whose value has a string "name" member. -/
def parse_deck_names (raw : DecksJson) : Except String (List (Int × String)) :=
  match raw with
  | DecksJson.notObject => Except.error "decks json must be object"
  | DecksJson.object entries =>
      Except.ok (entries.foldl
        (fun out kv =>
          match parseI64 kv.1, kv.2 with
          | some parsedId, some name => assocSet out parsedId name
          | _, _ => out)
        [])

/-- Ascending insert keeping values distinct, for the GROUP BY did key set. -/
def insertSortedDistinct (x : Int) : List Int → List Int
  | [] => [x]
  | y :: ys =>
      if x = y then y :: ys
      else if x < y then x :: y :: ys
      else y :: insertSortedDistinct x ys

/-- Distinct dids in ascending order, the grouping keys SQLite returns for
SELECT did, COUNT(*) FROM cards GROUP BY did. -/
def distinctSorted (l : List Int) : List Int :=
  l.foldl (fun acc x => insertSortedDistinct x acc) []

/-- Codepoint-lexicographic order on character lists, matching the byte
order Rust str cmp uses on valid UTF-8. -/
def strLtb : List Char → List Char → Bool
  | _, [] => false
  | [], _ :: _ => true
  | a :: as, b :: bs =>
      if a.toNat < b.toNat then true
      else if b.toNat < a.toNat then false
      else strLtb as bs

/-- Codepoint-lexicographic order on strings (Rust String Ord). -/
def strLt (a b : String) : Bool := strLtb a.data b.data

/-- Stable insert for sort_by on deck_name (Rust sort_by is stable; later
elements land after equal earlier ones). -/
def insByName (x : DeckStats) : List DeckStats → List DeckStats
  | [] => [x]
  | y :: ys =>
      if strLt x.deck_name y.deck_name then x :: y :: ys else y :: insByName x ys

/-- Stable sort of deck stats by deck_name ascending
(deck_stats.sort_by on deck_name, repository.rs line 342). -/
def sortByName (l : List DeckStats) : List DeckStats :=
  l.foldl (fun acc x => insByName x acc) []

/-- Model of extract_stats (repository.rs lines 316-351): counts rows of
cards, notes and revlog; reads the decks JSON column of col (erroring when
the query fails) and parses deck names from it; groups cards by did with a
fallback name; sorts per-deck stats by name. -/
def extract_stats (db : CollectionDb) : Except String BackupStats :=
  let total_cards : Int := db.cards.length
  let total_notes : Int := db.notes
  let total_revlog : Int := db.revlog
  match db.colDecks with
  | none => Except.error "query col.decks failed"
  | some decksJson =>
      match parse_deck_names decksJson with
      | Except.error e => Except.error e
      | Except.ok deck_names =>
          let total_decks : Int := deck_names.length
          let deck_stats := (distinctSorted db.cards).map (fun did =>
            { deck_id := did
              deck_name := (assocGet deck_names did).getD s!"Deck {did}"
              card_count := (db.cards.count did : Int) : DeckStats })
          Except.ok
            { total_cards := total_cards
              total_decks := total_decks
              total_notes := total_notes
              total_revlog := total_revlog
              deck_stats := sortByName deck_stats }

/-- Modelled from the spec: the deck-name resolution order the specification
describes for extract_stats — resolve from the dedicated deck table if
present, else fall back to the legacy JSON column, erroring only when both
fail. This definition exists only to compare the specified behaviour with
extract_stats above; the source has no dedicated-deck-table path. -/
def spec_resolve_deck_names (db : CollectionDb) : Except String (List (Int × String)) :=
  match db.deckTable with
  | some table => Except.ok table
  | none =>
      match db.colDecks with
      | none => Except.error "both deck name sources failed"
      | some decksJson => parse_deck_names decksJson

/-- Modelled from the spec: extract_stats with the deck-name resolution order
of the specification (modern deck table first, legacy JSON fallback). -/
def spec_extract_stats (db : CollectionDb) : Except String BackupStats :=
  let total_cards : Int := db.cards.length
  let total_notes : Int := db.notes
  let total_revlog : Int := db.revlog
  match spec_resolve_deck_names db with
  | Except.error e => Except.error e
  | Except.ok deck_names =>
      let total_decks : Int := deck_names.length
      let deck_stats := (distinctSorted db.cards).map (fun did =>
        { deck_id := did
          deck_name := (assocGet deck_names did).getD s!"Deck {did}"
          card_count := (db.cards.count did : Int) : DeckStats })
      Except.ok
        { total_cards := total_cards
          total_decks := total_decks
          total_notes := total_notes
          total_revlog := total_revlog
          deck_stats := sortByName deck_stats }

/-! ## BackupRepository state machine (repository.rs) -/

/-- run_once input payload (repository.rs lines 19-24); bytes carries the
collection database content the payload file will hold. -/
structure BackupPayload where
  bytes : CollectionDb
  source_revision : Option String
  sync_duration_ms : Option Int
deriving DecidableEq, Repr

/-- run_once outcome (repository.rs lines 26-30). -/
inductive RunOnceOutcome where
  | Created : BackupEntry → RunOnceOutcome
  | Skipped : BackupEntry → RunOnceOutcome
deriving DecidableEq, Repr

/-- Audit row of the rollback_events table. -/
structure RollbackEvent where
  id : Uuid
  backup_id : Uuid
  created_at : Int
deriving DecidableEq, Repr

/-- Content of the current-pointer file (state/current-pointer.json). -/
structure CurrentPointer where
  backup_id : Uuid
  timestamp_dir : String
  updated_at : Int
deriving DecidableEq, Repr

/-- Full observable state of one repository root: the backups table rows in
insertion order, the rollback_events rows, the backups/ subtree (snapshots
maps a timestamp_dir to the collection.anki2 content; metaFiles lists the
dirs holding a metadata.json), the current-pointer file, and the fresh-id
counter modelling Uuid::new_v4. -/
structure RepoState where
  backups : List BackupEntry
  rollback_events : List RollbackEvent
  snapshots : List (String × CollectionDb)
  metaFiles : List String
  pointer : Option CurrentPointer
  nextId : Nat
deriving DecidableEq, Repr

/-- Model of last_created_hash (repository.rs lines 300-308 and
sqlite_store.rs lines 128-139): SELECT content_hash FROM backups WHERE
status = created ORDER BY created_at DESC LIMIT 1. The fold keeps the row
with maximal created_at (first such row on ties, where SQL leaves the choice
open). -/
def maxStep (acc : Option BackupEntry) (e : BackupEntry) : Option BackupEntry :=
  match acc with
  | none => some e
  | some b => if e.created_at > b.created_at then some e else some b

/-- Row with maximal created_at (first on ties). -/
def maxByCreatedAt (rows : List BackupEntry) : Option BackupEntry :=
  rows.foldl maxStep none

/-- Hash of the most recent Created row, or none (same SQL as above). -/
def last_created_hash (rows : List BackupEntry) : Option String :=
  (maxByCreatedAt (rows.filter (fun e => e.status = BackupStatus.Created))).map
    (fun e => e.content_hash)

/-- Model of get_backup (repository.rs lines 118-148): SELECT ... WHERE
id = ?1, first matching row. Rows round-trip through the column encoding
unchanged for entries the repository itself wrote, so the model reads the
stored entry directly. -/
def get_backup (st : RepoState) (id : Uuid) : Option BackupEntry :=
  st.backups.find? (fun e => e.id = id)

/-- Model of BackupRepository::insert_entry (repository.rs lines 248-298):
assigns a fresh id, inserts the row, and for a Created entry writes the
redundant metadata.json side file into the snapshot directory. -/
def insert_entry (st : RepoState) (new_entry : NewBackupEntry) :
    RepoState × BackupEntry :=
  let entry : BackupEntry :=
    { id := st.nextId
      created_at := new_entry.created_at
      timestamp_dir := new_entry.timestamp_dir
      content_hash := new_entry.content_hash
      status := new_entry.status
      skip_reason := new_entry.skip_reason
      source_revision := new_entry.source_revision
      sync_duration_ms := new_entry.sync_duration_ms
      size_bytes := new_entry.size_bytes
      stats := new_entry.stats }
  let st1 : RepoState :=
    { st with backups := st.backups ++ [entry], nextId := st.nextId + 1 }
  let st2 : RepoState :=
    if entry.status = BackupStatus.Created then
      { st1 with metaFiles :=
          if bmem st1.metaFiles entry.timestamp_dir then st1.metaFiles
          else st1.metaFiles ++ [entry.timestamp_dir] }
    else st1
  (st2, entry)

/-- Model of write_current_pointer (repository.rs lines 211-222): overwrite
the pointer file via write-to-temp-then-rename; the rename makes the update
a single atomic replacement, modelled as one state change. -/
def write_current_pointer (st : RepoState) (backup : BackupEntry)
    (now : Int) : RepoState :=
  let ptr : CurrentPointer :=
    { backup_id := backup.id, timestamp_dir := backup.timestamp_dir,
      updated_at := now }
  { st with pointer := some ptr }

/-- Model of run_once (repository.rs lines 42-83). The source skips exactly
when last_created_hash returns Some(h) with h equal to content_hash. On the
create path it derives the timestamp dir from now, creates the directory and
writes the payload file, extracts stats from the written file (propagating
failure), reads the file size, inserts a Created entry (which also writes
metadata.json) and atomically repoints the current pointer. -/
def run_once (now : Int) (st : RepoState) (payload : BackupPayload)
    (content_hash : String) : Except String (RepoState × RunOnceOutcome) :=
  if last_created_hash st.backups = some content_hash then
    let r := insert_entry st (NewBackupEntry.skipped_unchanged now content_hash)
    Except.ok (r.1, RunOnceOutcome.Skipped r.2)
  else
    let timestamp_dir := format_timestamp_dir (epochToUtc now)
    let st1 : RepoState :=
      { st with snapshots := assocSet st.snapshots timestamp_dir payload.bytes }
    match extract_stats payload.bytes with
    | Except.error e => Except.error e
    | Except.ok stats =>
        let size_bytes := payload.bytes.sizeBytes
        let r := insert_entry st1
          (NewBackupEntry.created now timestamp_dir content_hash
            payload.source_revision payload.sync_duration_ms size_bytes stats)
        let st3 := write_current_pointer r.1 r.2 now
        Except.ok (st3, RunOnceOutcome.Created r.2)

/-- Model of rollback_to (repository.rs lines 150-170): load the entry by
id, fail when absent; fail when its status is not Created; otherwise repoint
the current pointer to it and append one rollback_events row. -/
def rollback_to (now : Int) (st : RepoState) (id : Uuid) :
    Except String (RepoState × BackupEntry) :=
  match get_backup st id with
  | none => Except.error ("backup not found: " ++ toString id)
  | some backup =>
      if backup.status ≠ BackupStatus.Created then
        Except.error ("cannot rollback to skipped backup " ++ toString backup.id)
      else
        let st1 := write_current_pointer st backup now
        let ev : RollbackEvent :=
          { id := st1.nextId, backup_id := backup.id, created_at := now }
        let st2 : RepoState :=
          { st1 with rollback_events := st1.rollback_events ++ [ev],
                     nextId := st1.nextId + 1 }
        Except.ok (st2, backup)

/-- Effect trace entry of pruning, recording the order in which the pass
touches the filesystem and the metadata rows. -/
inductive PruneEffect where
  | RemoveDir : String → PruneEffect
  | DeleteRow : Uuid → PruneEffect
deriving DecidableEq, Repr

/-- Whether backups/<dir> exists on disk. -/
def dirExists (st : RepoState) (dir : String) : Bool :=
  (assocGet st.snapshots dir).isSome || bmem st.metaFiles dir

/-- Remove backups/<dir> recursively (fs::remove_dir_all). -/
def removeDirFs (st : RepoState) (dir : String) : RepoState :=
  { st with snapshots := st.snapshots.filter (fun kv => kv.1 ≠ dir),
            metaFiles := st.metaFiles.filter (fun d => d ≠ dir) }

/-- Body of the directory-removal loop of prune_created_older_than_days
(repository.rs lines 196-202): remove the directory when it exists,
recording the effect. -/
def pruneDirStep (acc : RepoState × List PruneEffect) (p : Uuid × String) :
    RepoState × List PruneEffect :=
  if dirExists acc.1 p.2 then
    (removeDirFs acc.1 p.2, acc.2 ++ [PruneEffect.RemoveDir p.2])
  else acc

/-- Model of prune_created_older_than_days (repository.rs lines 179-209):
returns 0 immediately when retention_days ≤ 0; otherwise computes
cutoff = now − retention_days days, selects the (id, timestamp_dir) pairs of
Created rows with created_at < cutoff, removes each existing on-disk
directory first, then deletes each selected row by id, and returns the
selected count. The result carries the ordered effect trace. -/
def prune_created_older_than_days (now : Int) (st : RepoState)
    (retention_days : Int) : RepoState × Nat × List PruneEffect :=
  if retention_days ≤ 0 then (st, 0, [])
  else
    let cutoff := now - retention_days * 86400 * 1000000000
    let doomed := (st.backups.filter
      (fun e => e.status = BackupStatus.Created ∧ e.created_at < cutoff)).map
      (fun e => (e.id, e.timestamp_dir))
    let removal := doomed.foldl pruneDirStep (st, [])
    let st2 : RepoState :=
      { removal.1 with backups :=
          removal.1.backups.filter (fun e => !(bmem (doomed.map Prod.fst) e.id)) }
    (st2, doomed.length,
      removal.2 ++ doomed.map (fun p => PruneEffect.DeleteRow p.1))

/-! ## Sync client redirect handling (src/crates/sync/src/lib.rs) -/

/-- Reqwest redirect policy; the builder default follows up to ten hops,
and Policy::none disables automatic following. -/
inductive RedirectPolicy where
  | noFollow
  | limited : Nat → RedirectPolicy
deriving DecidableEq, Repr

/-- Redirect policy sync_collection configures on its reqwest client
(lib.rs line 268: .redirect(reqwest::redirect::Policy::none())). -/
def sync_client_redirect_policy : RedirectPolicy := RedirectPolicy.noFollow

/-- Bytes, abstract. -/
abbrev Bytes := List Nat

/-- The anki-sync request header (lib.rs lines 52-66). -/
structure SyncHeader where
  sync_version : Nat
  sync_key : String
  client_ver : String
  session_key : String
deriving DecidableEq, Repr

/-- One HTTP POST as sync_request issues it: target URL, serialized
anki-sync header, compressed body. -/
structure HttpRequest where
  url : String
  headerJson : String
  body : Bytes
deriving DecidableEq, Repr

/-- HTTP response as sync_request consumes it: status code, Location header
when present, body bytes. -/
structure HttpResponse where
  status : Nat
  location : Option String
  body : Bytes
deriving DecidableEq, Repr

/-- Status is a redirection (reqwest StatusCode::is_redirection, 3xx). -/
def isRedirection (status : Nat) : Bool := 300 ≤ status && status ≤ 399

/-- Status is a success (reqwest StatusCode::is_success, 2xx). -/
def isSuccess (status : Nat) : Bool := 200 ≤ status && status ≤ 299

/-- Model of str::trim_end_matches applied to a slash: drop every trailing
slash character. -/
def trimEndSlashes (s : String) : String :=
  String.mk (s.data.reverse.dropWhile (fun c => c = '/')).reverse

/-- Sync protocol constants (lib.rs lines 14-21). -/
def SYNC_VERSION : Nat := 11

/-- Short client version constant (lib.rs line 21). -/
def CLIENT_VERSION_SHORT : String := "25.09.2,dev,linux"

/-- Result of sync_request (lib.rs lines 115-120). -/
structure SyncRequestResult where
  data : Bytes
  new_endpoint : Option String
deriving DecidableEq, Repr

/-- Outcome of one sync_request call together with the ordered list of HTTP
requests it issued on the wire. -/
structure SyncRequestLog where
  outcome : Except String SyncRequestResult
  requests : List HttpRequest
deriving Repr

/-- Zstd magic prefix check followed by conditional decompression
(lib.rs lines 192-199); decompress stands for the external zstd codec. -/
def decodeBody (decompress : Bytes → Bytes) (respBytes : Bytes) : Bytes :=
  if respBytes.take 4 = [0x28, 0xb5, 0x2f, 0xfd] then decompress respBytes
  else respBytes

/-- Model of sync_request (lib.rs lines 123-202). serializeHeader models
serde_json::to_string over the header struct (deterministic), compress
models zstd_compress, decompress models zstd_decompress, and net is the
network: the response the server gives each request. The function posts to
{endpoint-with-trailing-slashes-trimmed}/sync/{method}; on a redirection
status it reads the Location header, trims trailing slashes to obtain the
new base, re-serializes the same header, reissues the POST with the same
compressed body against {new_base}/sync/{method}, and never follows a second
redirect; a missing Location leaves the redirect response to fail the
success check. Non-2xx final responses error; 2xx bodies are conditionally
decompressed. -/
def sync_request (serializeHeader : SyncHeader → String)
    (compress : Bytes → Bytes) (decompress : Bytes → Bytes)
    (net : HttpRequest → HttpResponse) (endpoint method hkey sessionKey : String)
    (body : Bytes) : SyncRequestLog :=
  let url := trimEndSlashes endpoint ++ "/sync/" ++ method
  let header : SyncHeader :=
    { sync_version := SYNC_VERSION, sync_key := hkey,
      client_ver := CLIENT_VERSION_SHORT, session_key := sessionKey }
  let compressedBody := compress body
  let headerJson := serializeHeader header
  let req1 : HttpRequest := { url := url, headerJson := headerJson, body := compressedBody }
  let resp1 := net req1
  let afterRedirect : HttpResponse × Option String × List HttpRequest :=
    if isRedirection resp1.status then
      match resp1.location with
      | some location =>
          let newBase := trimEndSlashes location
          let redirectUrl := newBase ++ "/sync/" ++ method
          let headerJson2 := serializeHeader header
          let req2 : HttpRequest :=
            { url := redirectUrl, headerJson := headerJson2, body := compressedBody }
          (net req2, some newBase, [req1, req2])
      | none => (resp1, none, [req1])
    else (resp1, none, [req1])
  let resp := afterRedirect.1
  let newEndpoint := afterRedirect.2.1
  let requests := afterRedirect.2.2
  { outcome :=
      if isSuccess resp.status then
        Except.ok
          { data := decodeBody decompress resp.body, new_endpoint := newEndpoint }
      else Except.error ("sync request to " ++ method ++ " failed"),
    requests := requests }

/-! ## Stored-row decoding (sqlite_store.rs row_to_entry lines 163-214 and
the identical inline logic of repository.rs get_backup and list_backups;
parse_uuid/parse_ts/parse_status/parse_skip_reason, repository.rs
lines 370-406) -/

/-- Raw column values of one backups row as SQLite hands them back. -/
structure RawRow where
  id : String
  created_at : String
  timestamp_dir : String
  content_hash : String
  status : String
  skip_reason : Option String
  source_revision : Option String
  sync_duration_ms : Option Int
  size_bytes : Int
  stats_json : Option String
deriving DecidableEq, Repr

/-- ASCII lowercase of a character (for eq_ignore_ascii_case). -/
def asciiLower (c : Char) : Char :=
  if 'A' ≤ c ∧ c ≤ 'Z' then Char.ofNat (c.toNat + 32) else c

/-- Model of str::eq_ignore_ascii_case. -/
def eqIgnoreAsciiCase (a b : String) : Bool :=
  a.data.map asciiLower = b.data.map asciiLower

/-- Model of parse_status (repository.rs lines 380-386): any string other
than case-insensitive "skipped" decodes to Created. -/
def parse_status (raw : String) : BackupStatus :=
  if eqIgnoreAsciiCase raw "skipped" then BackupStatus.Skipped
  else BackupStatus.Created

/-- Model of parse_skip_reason (repository.rs lines 395-400): every string
decodes to Unchanged. -/
def parse_skip_reason (_raw : String) : BackupSkipReason :=
  BackupSkipReason.Unchanged

/-- Model of parse_uuid (repository.rs lines 370-372): Uuid::parse_str with
the nil uuid as fallback; uuidParse stands for the external uuid crate
parser. -/
def parse_uuid (uuidParse : String → Option Uuid) (raw : String) : Uuid :=
  (uuidParse raw).getD Uuid.nilValue

/-- Model of parse_ts (repository.rs lines 374-378): RFC 3339 parse with the
current time as fallback; rfcParse stands for chrono parse_from_rfc3339 and
now for Utc::now(). -/
def parse_ts (rfcParse : String → Option Int) (now : Int) (raw : String) : Int :=
  (rfcParse raw).getD now

/-- Model of row_to_entry (sqlite_store.rs lines 163-182, same logic inline
in repository.rs get_backup and list_backups): id, created_at, status and
skip_reason decode totally with fallbacks; only stats_json decoding is
fallible (statsParse stands for serde_json::from_str over BackupStats). -/
def row_to_entry (uuidParse : String → Option Uuid)
    (rfcParse : String → Option Int) (statsParse : String → Option BackupStats)
    (now : Int) (row : RawRow) : Except String BackupEntry :=
  let statsDecoded : Except String (Option BackupStats) :=
    match row.stats_json with
    | none => Except.ok none
    | some raw =>
        match statsParse raw with
        | none => Except.error "stats_json conversion failure"
        | some stats => Except.ok (some stats)
  match statsDecoded with
  | Except.error e => Except.error e
  | Except.ok stats =>
      Except.ok
        { id := parse_uuid uuidParse row.id
          created_at := parse_ts rfcParse now row.created_at
          timestamp_dir := row.timestamp_dir
          content_hash := row.content_hash
          status := parse_status row.status
          skip_reason := row.skip_reason.map parse_skip_reason
          source_revision := row.source_revision
          sync_duration_ms := row.sync_duration_ms
          size_bytes := row.size_bytes
          stats := stats }

/-! ## Auxiliary predicates used in theorem statements -/

/-- Character is neither a forward slash nor a backslash. -/
def noSlashChar (c : Char) : Bool := !(c == '/') && !(c == '\\')

/-- Effect is a metadata-row deletion. -/
def isDeleteRowEffect : PruneEffect → Bool
  | PruneEffect.DeleteRow _ => true
  | PruneEffect.RemoveDir _ => false

/-- Trace shape the claim describes for pruning: all row deletions happen
before any directory removal. -/
def rowsBeforeDirs (l : List PruneEffect) : Bool :=
  (l.dropWhile isDeleteRowEffect).all (fun e => !(isDeleteRowEffect e))

/-- The empty repository state right after BackupRepository::new. -/
def emptyRepo : RepoState :=
  { backups := [], rollback_events := [], snapshots := [], metaFiles := [],
    pointer := none, nextId := 1 }

/-- Concrete collection content mirroring the synthetic collection of the
repository test suite: 3 cards over decks 10 and 20, 2 notes, 1 revlog row,
legacy decks JSON naming Default and Spanish. -/
def sampleDb : CollectionDb :=
  { cards := [10, 10, 20], notes := 2, revlog := 1,
    colDecks := some (DecksJson.object
      [("10", some "Default"), ("20", some "Spanish")]),
    deckTable := none, sizeBytes := 100 }

/-- Concrete payload carrying sampleDb. -/
def samplePayload : BackupPayload :=
  { bytes := sampleDb, source_revision := none, sync_duration_ms := some 1 }

/-- Concrete Created entry for witness states. -/
def sampleCreatedEntry : BackupEntry :=
  { id := 1, created_at := 0, timestamp_dir := "1970-01-01T00-00-00Z",
    content_hash := "h1", status := BackupStatus.Created, skip_reason := none,
    source_revision := none, sync_duration_ms := some 1, size_bytes := 100,
    stats := none }

/-- Concrete Skipped entry for witness states. -/
def sampleSkippedEntry : BackupEntry :=
  { id := 2, created_at := 5, timestamp_dir := "", content_hash := "h1",
    status := BackupStatus.Skipped,
    skip_reason := some BackupSkipReason.Unchanged, source_revision := none,
    sync_duration_ms := none, size_bytes := 0, stats := none }

/-- Concrete state holding one Created and one Skipped entry together with
the on-disk snapshot of the Created one. -/
def sampleState : RepoState :=
  { backups := [sampleCreatedEntry, sampleSkippedEntry],
    rollback_events := [],
    snapshots := [("1970-01-01T00-00-00Z", sampleDb)],
    metaFiles := ["1970-01-01T00-00-00Z"],
    pointer := some { backup_id := 1, timestamp_dir := "1970-01-01T00-00-00Z",
                      updated_at := 0 },
    nextId := 3 }

/-- Statistics extract_stats computes for sampleDb. -/
def sampleStats : BackupStats :=
  { total_cards := 3, total_decks := 2, total_notes := 2, total_revlog := 1,
    deck_stats := [{ deck_id := 10, deck_name := "Default", card_count := 2 },
                   { deck_id := 20, deck_name := "Spanish", card_count := 1 }] }

/-- Entry run_once produces at instant 0 on emptyRepo with samplePayload. -/
def freshCreatedEntry : BackupEntry :=
  { id := 1, created_at := 0, timestamp_dir := "1970-01-01T00-00-00Z",
    content_hash := "h1", status := BackupStatus.Created, skip_reason := none,
    source_revision := none, sync_duration_ms := some 1, size_bytes := 100,
    stats := some sampleStats }

/-- State run_once produces at instant 0 on emptyRepo with samplePayload. -/
def freshCreatedState : RepoState :=
  { backups := [freshCreatedEntry],
    rollback_events := [],
    snapshots := [("1970-01-01T00-00-00Z", sampleDb)],
    metaFiles := ["1970-01-01T00-00-00Z"],
    pointer := some { backup_id := 1, timestamp_dir := "1970-01-01T00-00-00Z",
                      updated_at := 0 },
    nextId := 2 }

/-- Concrete collection content of the modern schema shape: the dedicated
deck table is present and names deck 1 "A", while the legacy col table is
absent. -/
def dbModern : CollectionDb :=
  { cards := [1], notes := 0, revlog := 0, colDecks := none,
    deckTable := some [(1, "A")], sizeBytes := 5 }

/-- Concrete header serializer for sync witnesses (stands for the
deterministic serde serialization). -/
def wHeaderSer : SyncHeader → String :=
  fun h => h.sync_key ++ "|" ++ h.session_key

/-- Concrete network for sync witnesses: the meta URL redirects to a shard,
every other URL answers 200. -/
def wNet : HttpRequest → HttpResponse :=
  fun r =>
    if r.url = "https://sync.ankiweb.net/sync/meta" then
      { status := 308, location := some "https://sync32.ankiweb.net/",
        body := [] }
    else { status := 200, location := none, body := [1] }

/-- First request the sync witness issues. -/
def wReq1 : HttpRequest :=
  { url := "https://sync.ankiweb.net/sync/meta",
    headerJson := wHeaderSer
      { sync_version := SYNC_VERSION, sync_key := "k",
        client_ver := CLIENT_VERSION_SHORT, session_key := "s" },
    body := [] }

/-- Concrete malformed row for the decoding witness: invalid uuid, invalid
timestamp, unknown status string, unexpected skip_reason, no stats. -/
def badRow : RawRow :=
  { id := "not-a-uuid", created_at := "garbage", timestamp_dir := "",
    content_hash := "h", status := "weird", skip_reason := some "xyz",
    source_revision := none, sync_duration_ms := none, size_bytes := 0,
    stats_json := none }

/-- Concrete Created entry backdated to the epoch, for pruning scenarios. -/
def oldEntry : BackupEntry :=
  { id := 5, created_at := 0, timestamp_dir := "d1", content_hash := "h",
    status := BackupStatus.Created, skip_reason := none,
    source_revision := none, sync_duration_ms := none, size_bytes := 1,
    stats := none }

/-- Concrete state holding oldEntry and its on-disk directory. -/
def oldState : RepoState :=
  { backups := [oldEntry], rollback_events := [],
    snapshots := [("d1", sampleDb)], metaFiles := ["d1"],
    pointer := none, nextId := 6 }

/-! # Theorems -/

/-! ## Helper lemmas about decimal rendering -/

theorem digitChar_noSlash (d : Nat) : noSlashChar (digitChar d) = true := by
  rcases d with _|_|_|_|_|_|_|_|_|_|d <;> rfl

theorem natDigitsGo_noSlash (fuel : Nat) : ∀ (n : Nat) (acc : List Char),
    acc.all noSlashChar = true →
    (natDigitsGo fuel n acc).all noSlashChar = true := by
  induction fuel with
  | zero => exact fun n acc h => h
  | succ fuel ih =>
    intro n acc h
    unfold natDigitsGo
    split
    · simp [List.all_cons, digitChar_noSlash, h]
    · exact ih (n / 10) _ (by simp [List.all_cons, digitChar_noSlash, h])

theorem natDigits_noSlash (n : Nat) : (natDigits n).all noSlashChar = true :=
  natDigitsGo_noSlash (n + 1) n [] rfl

theorem padNat_noSlash (w n : Nat) : (padNat w n).all noSlashChar = true := by
  unfold padNat
  rw [List.all_append]
  have hrep : (List.replicate (w - (natDigits n).length) '0').all noSlashChar = true := by
    rw [List.all_eq_true]
    intro c hc
    rw [List.eq_of_mem_replicate hc]
    rfl
  simp [hrep, natDigits_noSlash]

theorem yearChars_noSlash (y : Int) : (yearChars y).all noSlashChar = true := by
  unfold yearChars
  split
  · exact padNat_noSlash 4 y.toNat
  · split
    · rw [List.all_cons, padNat_noSlash]
      rfl
    · rw [List.all_cons, padNat_noSlash]
      rfl

theorem rfc3339SecsChars_noSlash (dt : UtcDateTime) :
    (rfc3339SecsChars dt).all noSlashChar = true := by
  unfold rfc3339SecsChars
  simp only [List.all_append, List.all_cons]
  simp [yearChars_noSlash, padNat_noSlash]
  decide

/-- C9: for every UTC instant, the snapshot directory name run_once derives
from it (format_timestamp_dir) contains no colon and no path separator
character (neither a forward slash nor a backslash). -/
theorem c9_timestamp_dir_no_colon_no_separator (dt : UtcDateTime) :
    ((format_timestamp_dir dt).data.all
      (fun c => !(c == ':') && !(c == '/') && !(c == '\\'))) = true := by
  have hdata : (format_timestamp_dir dt).data
      = (rfc3339SecsChars dt).map (fun c => if c = ':' then '-' else c) := rfl
  rw [hdata, List.all_map]
  have h := rfc3339SecsChars_noSlash dt
  rw [List.all_eq_true] at h ⊢
  intro c hc
  have hns := h c hc
  simp only [Function.comp_apply]
  by_cases hcol : c = ':'
  · subst hcol
    rfl
  · rw [if_neg hcol]
    unfold noSlashChar at hns
    simp only [Bool.and_eq_true, Bool.not_eq_true', beq_eq_false_iff_ne] at hns ⊢
    exact ⟨⟨hcol, hns.1⟩, hns.2⟩

/-- C1: whenever the most recent Created hash of the store equals the
incoming content_hash, run_once returns a Skipped outcome whose entry has
status Skipped, skip_reason Unchanged, empty timestamp_dir, zero size_bytes
and no stats. -/
theorem c1_run_once_skip_entry_shape (now : Int) (st : RepoState)
    (payload : BackupPayload) (content_hash : String)
    (h : last_created_hash st.backups = some content_hash) :
    ∃ st' e, run_once now st payload content_hash
        = Except.ok (st', RunOnceOutcome.Skipped e)
      ∧ e.status = BackupStatus.Skipped
      ∧ e.skip_reason = some BackupSkipReason.Unchanged
      ∧ e.timestamp_dir = ""
      ∧ e.size_bytes = 0
      ∧ e.stats = none := by
  unfold run_once
  rw [if_pos h]
  exact ⟨_, _, rfl, rfl, rfl, rfl, rfl, rfl⟩

/-- Witness for C1 at a concrete state whose last Created hash is "h1". -/
theorem c1_witness :
    last_created_hash sampleState.backups = some "h1"
    ∧ ∃ st' e, run_once 7 sampleState samplePayload "h1"
        = Except.ok (st', RunOnceOutcome.Skipped e)
      ∧ e.status = BackupStatus.Skipped
      ∧ e.skip_reason = some BackupSkipReason.Unchanged
      ∧ e.timestamp_dir = ""
      ∧ e.size_bytes = 0
      ∧ e.stats = none :=
  ⟨by decide, c1_run_once_skip_entry_shape 7 sampleState samplePayload "h1" (by decide)⟩

/-- C3: rollback_to fails when no entry with the id exists and when the
entry found is not Created; on a Created entry it succeeds, returns that
entry, repoints the current pointer to it, appends exactly one RollbackEvent
referencing it, and modifies no backup entry. -/
theorem c3_rollback_to (now : Int) (st : RepoState) (id₁ id₂ id₃ : Uuid)
    (e₂ e₃ : BackupEntry)
    (h1 : get_backup st id₁ = none)
    (h2 : get_backup st id₂ = some e₂)
    (h2s : e₂.status = BackupStatus.Skipped)
    (h3 : get_backup st id₃ = some e₃)
    (h3s : e₃.status = BackupStatus.Created) :
    (rollback_to now st id₁).isOk = false
    ∧ (rollback_to now st id₂).isOk = false
    ∧ ∃ st', rollback_to now st id₃ = Except.ok (st', e₃)
        ∧ st'.pointer = some ⟨e₃.id, e₃.timestamp_dir, now⟩
        ∧ (∃ ev, st'.rollback_events = st.rollback_events ++ [ev]
            ∧ ev.backup_id = e₃.id)
        ∧ st'.backups = st.backups := by
  refine ⟨?_, ?_, ?_⟩
  · unfold rollback_to
    rw [h1]
    rfl
  · unfold rollback_to
    rw [h2]
    have hne : e₂.status ≠ BackupStatus.Created := by
      rw [h2s]
      exact fun hc => nomatch hc
    dsimp only
    rw [if_pos hne]
    rfl
  · unfold rollback_to
    rw [h3]
    have hyes : ¬ e₃.status ≠ BackupStatus.Created := by
      rw [h3s]
      exact fun hc => hc rfl
    dsimp only
    rw [if_neg hyes]
    exact ⟨_, rfl, rfl, ⟨_, rfl, rfl⟩, rfl⟩

/-- Witness for C3 at a concrete state: id 9 is absent, id 2 is Skipped,
id 1 is Created. -/
theorem c3_witness :
    get_backup sampleState 9 = none
    ∧ get_backup sampleState 2 = some sampleSkippedEntry
    ∧ sampleSkippedEntry.status = BackupStatus.Skipped
    ∧ get_backup sampleState 1 = some sampleCreatedEntry
    ∧ sampleCreatedEntry.status = BackupStatus.Created
    ∧ ((rollback_to 11 sampleState 9).isOk = false
        ∧ (rollback_to 11 sampleState 2).isOk = false
        ∧ ∃ st', rollback_to 11 sampleState 1 = Except.ok (st', sampleCreatedEntry)
            ∧ st'.pointer = some ⟨sampleCreatedEntry.id, sampleCreatedEntry.timestamp_dir, 11⟩
            ∧ (∃ ev, st'.rollback_events = sampleState.rollback_events ++ [ev]
                ∧ ev.backup_id = sampleCreatedEntry.id)
            ∧ st'.backups = sampleState.backups) :=
  ⟨by decide, by decide, by decide, by decide, by decide,
    c3_rollback_to 11 sampleState 9 2 1 sampleSkippedEntry sampleCreatedEntry
      (by decide) (by decide) (by decide) (by decide) (by decide)⟩

theorem maxByCreatedAt_go (l : List BackupEntry) (b : BackupEntry) :
    ∃ m, List.foldl maxStep (some b) l = some m
      ∧ (m = b ∨ m ∈ l)
      ∧ b.created_at ≤ m.created_at
      ∧ ∀ x ∈ l, x.created_at ≤ m.created_at := by
  induction l generalizing b with
  | nil =>
    refine ⟨b, rfl, Or.inl rfl, le_refl _, ?_⟩
    intro x hx
    cases hx
  | cons y ys ih =>
    rw [List.foldl_cons]
    by_cases hgt : y.created_at > b.created_at
    · have hstep : maxStep (some b) y = some y := by
        unfold maxStep
        dsimp only
        rw [if_pos hgt]
      rw [hstep]
      obtain ⟨m, hm, hmem, hble, hall⟩ := ih y
      refine ⟨m, hm, ?_, ?_, ?_⟩
      · rcases hmem with hmy | hmys
        · exact Or.inr (hmy ▸ List.mem_cons_self y ys)
        · exact Or.inr (List.mem_cons_of_mem y hmys)
      · exact le_of_lt (lt_of_lt_of_le hgt hble)
      · intro x hx
        rcases List.mem_cons.mp hx with hxy | hxys
        · exact hxy ▸ hble
        · exact hall x hxys
    · have hstep : maxStep (some b) y = some b := by
        unfold maxStep
        dsimp only
        rw [if_neg hgt]
      rw [hstep]
      obtain ⟨m, hm, hmem, hble, hall⟩ := ih b
      refine ⟨m, hm, ?_, hble, ?_⟩
      · rcases hmem with hmb | hmys
        · exact Or.inl hmb
        · exact Or.inr (List.mem_cons_of_mem y hmys)
      · intro x hx
        rcases List.mem_cons.mp hx with hxy | hxys
        · subst hxy
          exact le_trans (not_lt.mp hgt) hble
        · exact hall x hxys

theorem maxByCreatedAt_spec (rows : List BackupEntry) (hne : rows ≠ []) :
    ∃ m, maxByCreatedAt rows = some m ∧ m ∈ rows
      ∧ ∀ x ∈ rows, x.created_at ≤ m.created_at := by
  cases rows with
  | nil => exact absurd rfl hne
  | cons hd tl =>
    unfold maxByCreatedAt
    rw [List.foldl_cons]
    have hstep : maxStep none hd = some hd := rfl
    rw [hstep]
    obtain ⟨m, hm, hmem, hble, hall⟩ := maxByCreatedAt_go tl hd
    refine ⟨m, hm, ?_, ?_⟩
    · rcases hmem with hmb | hmys
      · exact hmb ▸ List.mem_cons_self hd tl
      · exact List.mem_cons_of_mem hd hmys
    · intro x hx
      rcases List.mem_cons.mp hx with hxy | hxys
      · exact hxy ▸ hble
      · exact hall x hxys

/-- C5: last_created_hash returns the content_hash of the most recent
Created entry (none when no Created entry exists), and appending any number
of Skipped entries after the rows leaves its value unchanged. -/
theorem c5_last_created_hash (rows₁ : List BackupEntry) (e : BackupEntry)
    (h1 : e ∈ rows₁) (h2 : e.status = BackupStatus.Created)
    (h3 : ∀ e' ∈ rows₁, e'.status = BackupStatus.Created → e' ≠ e →
      e'.created_at < e.created_at)
    (rows₂ extra : List BackupEntry)
    (hextra : ∀ x ∈ extra, x.status = BackupStatus.Skipped)
    (rows₃ : List BackupEntry)
    (h4 : ∀ x ∈ rows₃, x.status = BackupStatus.Skipped) :
    last_created_hash rows₁ = some e.content_hash
    ∧ last_created_hash (rows₂ ++ extra) = last_created_hash rows₂
    ∧ last_created_hash rows₃ = none := by
  have hskipfilter : ∀ (l : List BackupEntry),
      (∀ x ∈ l, x.status = BackupStatus.Skipped) →
      l.filter (fun x => x.status = BackupStatus.Created) = [] := by
    intro l hl
    rw [List.filter_eq_nil_iff]
    intro x hx
    simp [hl x hx]
  refine ⟨?_, ?_, ?_⟩
  · unfold last_created_hash
    have hel : e ∈ rows₁.filter (fun x => x.status = BackupStatus.Created) :=
      List.mem_filter.mpr ⟨h1, by simp [h2]⟩
    obtain ⟨m, hm, hmem, hall⟩ :=
      maxByCreatedAt_spec _ (List.ne_nil_of_mem hel)
    have hme : m = e := by
      by_contra hne
      have hmrows := List.mem_filter.mp hmem
      have hmlt : m.created_at < e.created_at := by
        refine h3 m hmrows.1 ?_ hne
        simpa using hmrows.2
      exact absurd (lt_of_le_of_lt (hall e hel) hmlt) (lt_irrefl _)
    rw [hm, hme]
    rfl
  · unfold last_created_hash
    rw [List.filter_append, hskipfilter extra hextra, List.append_nil]
  · unfold last_created_hash
    rw [hskipfilter rows₃ h4]
    rfl

/-- Witness for C5 at concrete rows: one Created entry among Skipped ones. -/
theorem c5_witness :
    (sampleCreatedEntry ∈ [sampleCreatedEntry, sampleSkippedEntry]
      ∧ sampleCreatedEntry.status = BackupStatus.Created
      ∧ (∀ e' ∈ [sampleCreatedEntry, sampleSkippedEntry],
          e'.status = BackupStatus.Created → e' ≠ sampleCreatedEntry →
          e'.created_at < sampleCreatedEntry.created_at)
      ∧ (∀ x ∈ [sampleSkippedEntry], x.status = BackupStatus.Skipped))
    ∧ last_created_hash [sampleCreatedEntry, sampleSkippedEntry]
        = some sampleCreatedEntry.content_hash
    ∧ last_created_hash ([sampleCreatedEntry] ++ [sampleSkippedEntry])
        = last_created_hash [sampleCreatedEntry]
    ∧ last_created_hash [sampleSkippedEntry] = none :=
  ⟨⟨by decide, by decide, by decide, by decide⟩,
    c5_last_created_hash [sampleCreatedEntry, sampleSkippedEntry]
      sampleCreatedEntry (by decide) (by decide) (by decide)
      [sampleCreatedEntry] [sampleSkippedEntry] (by decide)
      [sampleSkippedEntry] (by decide)⟩

/-! ## Helper lemmas about run_once -/

theorem format_timestamp_dir_ne_empty (dt : UtcDateTime) :
    format_timestamp_dir dt ≠ "" := by
  intro h
  have hdata : ((rfc3339SecsChars dt).map
      (fun c => if c = ':' then '-' else c)) = [] := congrArg String.data h
  rw [List.map_eq_nil_iff] at hdata
  unfold rfc3339SecsChars at hdata
  simp at hdata

theorem assocGet_assocSet {α β : Type} [DecidableEq α]
    (l : List (α × β)) (k : α) (v : β) :
    assocGet (assocSet l k v) k = some v := by
  induction l with
  | nil =>
    unfold assocSet assocGet
    rw [if_pos rfl]
  | cons hd tl ih =>
    unfold assocSet
    by_cases hk : hd.1 = k
    · rw [if_pos hk]
      unfold assocGet
      rw [if_pos rfl]
    · rw [if_neg hk]
      unfold assocGet
      rw [if_neg hk]
      exact ih

theorem run_once_skip_frame (now : Int) (st : RepoState) (p : BackupPayload)
    (ch : String) (h : last_created_hash st.backups = some ch) :
    ∃ st' e, run_once now st p ch = Except.ok (st', RunOnceOutcome.Skipped e)
      ∧ st'.snapshots = st.snapshots
      ∧ st'.metaFiles = st.metaFiles
      ∧ st'.pointer = st.pointer
      ∧ st'.backups = st.backups ++ [e]
      ∧ e = { id := st.nextId, created_at := now, timestamp_dir := "",
              content_hash := ch, status := BackupStatus.Skipped,
              skip_reason := some BackupSkipReason.Unchanged,
              source_revision := none, sync_duration_ms := none,
              size_bytes := 0, stats := none } := by
  unfold run_once
  rw [if_pos h]
  exact ⟨_, _, rfl, rfl, rfl, rfl, rfl, rfl⟩

theorem run_once_created_shape (now : Int) (st : RepoState)
    (p : BackupPayload) (ch : String) (stats : BackupStats)
    (hne : ¬ last_created_hash st.backups = some ch)
    (hex : extract_stats p.bytes = Except.ok stats) :
    ∃ st' e, run_once now st p ch = Except.ok (st', RunOnceOutcome.Created e)
      ∧ e = { id := st.nextId, created_at := now,
              timestamp_dir := format_timestamp_dir (epochToUtc now),
              content_hash := ch, status := BackupStatus.Created,
              skip_reason := none, source_revision := p.source_revision,
              sync_duration_ms := p.sync_duration_ms,
              size_bytes := p.bytes.sizeBytes, stats := some stats }
      ∧ st'.backups = st.backups ++ [e]
      ∧ st'.snapshots = assocSet st.snapshots e.timestamp_dir p.bytes
      ∧ st'.pointer = some ⟨e.id, e.timestamp_dir, now⟩
      ∧ st'.nextId = st.nextId + 1 := by
  unfold run_once
  rw [if_neg hne]
  dsimp only
  rw [hex]
  exact ⟨_, _, rfl, rfl, rfl, rfl, rfl, rfl⟩

theorem last_created_hash_of_strict_max (rows : List BackupEntry)
    (e : BackupEntry) (h1 : e ∈ rows) (h2 : e.status = BackupStatus.Created)
    (h3 : ∀ e' ∈ rows, e'.status = BackupStatus.Created → e' ≠ e →
      e'.created_at < e.created_at) :
    last_created_hash rows = some e.content_hash := by
  unfold last_created_hash
  have hel : e ∈ rows.filter (fun x => x.status = BackupStatus.Created) :=
    List.mem_filter.mpr ⟨h1, by simp [h2]⟩
  obtain ⟨m, hm, hmem, hall⟩ :=
    maxByCreatedAt_spec _ (List.ne_nil_of_mem hel)
  have hme : m = e := by
    by_contra hneq
    have hmrows := List.mem_filter.mp hmem
    have hmlt : m.created_at < e.created_at := by
      refine h3 m hmrows.1 ?_ hneq
      simpa using hmrows.2
    exact absurd (lt_of_le_of_lt (hall e hel) hmlt) (lt_irrefl _)
  rw [hm, hme]
  rfl

/-- C6: on the Skipped path run_once writes nothing under backups/ and does
not touch the current pointer; calling run_once twice with the same digest
from a state whose last Created hash differs yields Created then Skipped,
where the second call creates no directory and leaves the pointer where the
first call put it. -/
theorem c6_skip_path_frame (nowA : Int) (stA : RepoState) (pA : BackupPayload)
    (hA : String) (hskip : last_created_hash stA.backups = some hA)
    (now₁ now₂ : Int) (st₀ : RepoState) (p p' : BackupPayload) (h : String)
    (stats : BackupStats)
    (hne : ¬ last_created_hash st₀.backups = some h)
    (hex : extract_stats p.bytes = Except.ok stats)
    (hmax : ∀ x ∈ st₀.backups, x.status = BackupStatus.Created →
      x.created_at < now₁) :
    (∃ st' e, run_once nowA stA pA hA = Except.ok (st', RunOnceOutcome.Skipped e)
      ∧ st'.snapshots = stA.snapshots
      ∧ st'.metaFiles = stA.metaFiles
      ∧ st'.pointer = stA.pointer)
    ∧ ∃ st₁ e₁, run_once now₁ st₀ p h = Except.ok (st₁, RunOnceOutcome.Created e₁)
      ∧ st₁.pointer = some ⟨e₁.id, e₁.timestamp_dir, now₁⟩
      ∧ ∃ st₂ e₂, run_once now₂ st₁ p' h = Except.ok (st₂, RunOnceOutcome.Skipped e₂)
        ∧ st₂.snapshots = st₁.snapshots
        ∧ st₂.metaFiles = st₁.metaFiles
        ∧ st₂.pointer = st₁.pointer := by
  constructor
  · obtain ⟨st', e, hrun, hsnap, hmeta, hptr, _, _⟩ :=
      run_once_skip_frame nowA stA pA hA hskip
    exact ⟨st', e, hrun, hsnap, hmeta, hptr⟩
  · obtain ⟨st₁, e₁, hrun₁, he₁, hb₁, _, hptr₁, _⟩ :=
      run_once_created_shape now₁ st₀ p h stats hne hex
    have hlch : last_created_hash st₁.backups = some h := by
      have hcontent : e₁.content_hash = h := by rw [he₁]
      have hstatus : e₁.status = BackupStatus.Created := by rw [he₁]
      have hca : e₁.created_at = now₁ := by rw [he₁]
      have hmem : e₁ ∈ st₁.backups := by
        rw [hb₁]
        exact List.mem_append_right _ (List.mem_singleton.mpr rfl)
      have := last_created_hash_of_strict_max st₁.backups e₁ hmem hstatus ?_
      · rw [this, hcontent]
      · intro e' he' hc' hne'
        rw [hb₁] at he'
        rcases List.mem_append.mp he' with h₀ | hsing
        · rw [hca]
          exact hmax e' h₀ hc'
        · exact absurd (List.mem_singleton.mp hsing) hne'
    obtain ⟨st₂, e₂, hrun₂, hsnap₂, hmeta₂, hptr₂, _, _⟩ :=
      run_once_skip_frame now₂ st₁ p' h hlch
    have hid : e₁.id = st₀.nextId := by rw [he₁]
    have htd : e₁.timestamp_dir = format_timestamp_dir (epochToUtc now₁) := by
      rw [he₁]
    refine ⟨st₁, e₁, hrun₁, ?_, st₂, e₂, hrun₂, hsnap₂, hmeta₂, hptr₂⟩
    rw [hptr₁, hid, htd]

/-- Witness for C6: a skip at sampleState, and the create-then-skip pair
from the empty repository. -/
theorem c6_witness :
    (last_created_hash sampleState.backups = some "h1"
      ∧ ¬ last_created_hash emptyRepo.backups = some "h1"
      ∧ extract_stats samplePayload.bytes = Except.ok sampleStats
      ∧ ∀ x ∈ emptyRepo.backups, x.status = BackupStatus.Created →
          x.created_at < 0)
    ∧ (∃ st' e, run_once 13 sampleState samplePayload "h1"
          = Except.ok (st', RunOnceOutcome.Skipped e)
        ∧ st'.snapshots = sampleState.snapshots
        ∧ st'.metaFiles = sampleState.metaFiles
        ∧ st'.pointer = sampleState.pointer)
    ∧ ∃ st₁ e₁, run_once 0 emptyRepo samplePayload "h1"
        = Except.ok (st₁, RunOnceOutcome.Created e₁)
      ∧ st₁.pointer = some ⟨e₁.id, e₁.timestamp_dir, 0⟩
      ∧ ∃ st₂ e₂, run_once 1000000000 st₁ samplePayload "h1"
          = Except.ok (st₂, RunOnceOutcome.Skipped e₂)
        ∧ st₂.snapshots = st₁.snapshots
        ∧ st₂.metaFiles = st₁.metaFiles
        ∧ st₂.pointer = st₁.pointer := by
  have hmain := c6_skip_path_frame 13 sampleState samplePayload "h1" (by decide)
    0 1000000000 emptyRepo samplePayload samplePayload "h1" sampleStats
    (by decide) (by rfl) (by decide)
  exact ⟨⟨by decide, by decide, by rfl, by decide⟩, hmain.1, hmain.2⟩

/-- C7: every entry a successful run_once returns (and persists) satisfies
the status invariant: Skipped entries have empty timestamp_dir, no stats and
zero size; Created entries have a non-empty timestamp_dir and the snapshot
file exists at that directory with the payload content. -/
theorem c7_entry_invariant (now : Int) (st : RepoState) (p : BackupPayload)
    (ch : String) (st' : RepoState) (out : RunOnceOutcome)
    (hrun : run_once now st p ch = Except.ok (st', out)) :
    match out with
    | RunOnceOutcome.Skipped e =>
        e.status = BackupStatus.Skipped ∧ e.timestamp_dir = ""
          ∧ e.stats = none ∧ e.size_bytes = 0 ∧ e ∈ st'.backups
    | RunOnceOutcome.Created e =>
        e.status = BackupStatus.Created ∧ e.timestamp_dir ≠ ""
          ∧ assocGet st'.snapshots e.timestamp_dir = some p.bytes
          ∧ e ∈ st'.backups := by
  unfold run_once at hrun
  by_cases hdedup : last_created_hash st.backups = some ch
  · rw [if_pos hdedup] at hrun
    obtain ⟨heq₁, heq₂⟩ := Prod.mk.injEq _ _ _ _ ▸ Except.ok.injEq _ _ ▸ hrun
    subst heq₁
    cases heq₂
    exact ⟨rfl, rfl, rfl, rfl, by
      exact List.mem_append_right _ (List.mem_singleton.mpr rfl)⟩
  · rw [if_neg hdedup] at hrun
    dsimp only at hrun
    cases hex : extract_stats p.bytes with
    | error msg =>
      rw [hex] at hrun
      exact absurd hrun (by simp)
    | ok stats =>
      rw [hex] at hrun
      dsimp only at hrun
      obtain ⟨heq₁, heq₂⟩ := Prod.mk.injEq _ _ _ _ ▸ Except.ok.injEq _ _ ▸ hrun
      subst heq₁
      cases heq₂
      refine ⟨rfl, format_timestamp_dir_ne_empty _, ?_, ?_⟩
      · exact assocGet_assocSet st.snapshots _ p.bytes
      · exact List.mem_append_right _ (List.mem_singleton.mpr rfl)

/-- Witness for C7 at the concrete first run from the empty repository. -/
theorem c7_witness :
    run_once 0 emptyRepo samplePayload "h1"
      = Except.ok (freshCreatedState, RunOnceOutcome.Created freshCreatedEntry)
    ∧ (freshCreatedEntry.status = BackupStatus.Created
      ∧ freshCreatedEntry.timestamp_dir ≠ ""
      ∧ assocGet freshCreatedState.snapshots freshCreatedEntry.timestamp_dir
          = some samplePayload.bytes
      ∧ freshCreatedEntry ∈ freshCreatedState.backups) :=
  ⟨by rfl,
    c7_entry_invariant 0 emptyRepo samplePayload "h1" freshCreatedState
      (RunOnceOutcome.Created freshCreatedEntry) (by rfl)⟩

/-! ## Helper lemmas about pruning -/

theorem bmem_iff {α : Type} [DecidableEq α] (l : List α) (x : α) :
    bmem l x = true ↔ x ∈ l := by
  unfold bmem
  simp [List.any_eq_true]

theorem bmem_false_iff {α : Type} [DecidableEq α] (l : List α) (x : α) :
    bmem l x = false ↔ x ∉ l := by
  rw [← Bool.not_eq_true, not_iff_not]
  exact bmem_iff l x

theorem assocGet_eq_none_iff {α β : Type} [DecidableEq α]
    (l : List (α × β)) (k : α) :
    assocGet l k = none ↔ ∀ kv ∈ l, kv.1 ≠ k := by
  induction l with
  | nil => simp [assocGet]
  | cons hd tl ih =>
    obtain ⟨k', v⟩ := hd
    unfold assocGet
    by_cases hk : k' = k
    · rw [if_pos hk]
      simp only [List.mem_cons]
      constructor
      · intro h
        exact absurd h (by simp)
      · intro h
        exact absurd hk (h (k', v) (Or.inl rfl))
    · rw [if_neg hk]
      rw [ih]
      constructor
      · intro h kv hkv
        rcases List.mem_cons.mp hkv with heq | htl
        · rw [heq]
          exact hk
        · exact h kv htl
      · intro h kv hkv
        exact h kv (List.mem_cons_of_mem _ hkv)

theorem assocGet_filter_self (l : List (String × CollectionDb)) (k : String) :
    assocGet (l.filter (fun kv => kv.1 ≠ k)) k = none := by
  rw [assocGet_eq_none_iff]
  intro kv hkv
  have := (List.mem_filter.mp hkv).2
  simpa using this

theorem assocGet_filter_none (l : List (String × CollectionDb))
    (q : String × CollectionDb → Bool) (k : String)
    (h : assocGet l k = none) : assocGet (l.filter q) k = none := by
  rw [assocGet_eq_none_iff] at h ⊢
  intro kv hkv
  exact h kv (List.mem_filter.mp hkv).1

theorem bmem_filter_self (l : List String) (k : String) :
    bmem (l.filter (fun d => d ≠ k)) k = false := by
  rw [bmem_false_iff]
  intro hmem
  have := (List.mem_filter.mp hmem).2
  simp at this

theorem bmem_filter_false (l : List String) (q : String → Bool) (k : String)
    (h : bmem l k = false) : bmem (l.filter q) k = false := by
  rw [bmem_false_iff] at h ⊢
  intro hmem
  exact h (List.mem_filter.mp hmem).1

theorem pruneFold_frame (l : List (Uuid × String))
    (acc : RepoState × List PruneEffect) :
    (l.foldl pruneDirStep acc).1.backups = acc.1.backups
    ∧ (l.foldl pruneDirStep acc).1.pointer = acc.1.pointer
    ∧ (l.foldl pruneDirStep acc).1.rollback_events = acc.1.rollback_events
    ∧ (l.foldl pruneDirStep acc).1.nextId = acc.1.nextId := by
  induction l generalizing acc with
  | nil => exact ⟨rfl, rfl, rfl, rfl⟩
  | cons hd tl ih =>
    rw [List.foldl_cons]
    have hstep : (pruneDirStep acc hd).1.backups = acc.1.backups
        ∧ (pruneDirStep acc hd).1.pointer = acc.1.pointer
        ∧ (pruneDirStep acc hd).1.rollback_events = acc.1.rollback_events
        ∧ (pruneDirStep acc hd).1.nextId = acc.1.nextId := by
      unfold pruneDirStep
      split
      · exact ⟨rfl, rfl, rfl, rfl⟩
      · exact ⟨rfl, rfl, rfl, rfl⟩
    obtain ⟨ih1, ih2, ih3, ih4⟩ := ih (pruneDirStep acc hd)
    exact ⟨ih1.trans hstep.1, ih2.trans hstep.2.1,
      ih3.trans hstep.2.2.1, ih4.trans hstep.2.2.2⟩

theorem pruneFold_effects (l : List (Uuid × String))
    (acc : RepoState × List PruneEffect) :
    ∃ effs, (l.foldl pruneDirStep acc).2 = acc.2 ++ effs
      ∧ ∀ x ∈ effs, ∃ d, x = PruneEffect.RemoveDir d := by
  induction l generalizing acc with
  | nil =>
    refine ⟨[], (List.append_nil _).symm, ?_⟩
    intro x hx
    cases hx
  | cons hd tl ih =>
    rw [List.foldl_cons]
    by_cases hex : dirExists acc.1 hd.2 = true
    · have hstep : pruneDirStep acc hd
          = (removeDirFs acc.1 hd.2, acc.2 ++ [PruneEffect.RemoveDir hd.2]) := by
        unfold pruneDirStep
        rw [if_pos hex]
      rw [hstep]
      obtain ⟨effs, heq, hall⟩ :=
        ih (removeDirFs acc.1 hd.2, acc.2 ++ [PruneEffect.RemoveDir hd.2])
      refine ⟨PruneEffect.RemoveDir hd.2 :: effs, ?_, ?_⟩
      · rw [heq]
        simp
      · intro x hx
        rcases List.mem_cons.mp hx with heq' | htl
        · exact ⟨hd.2, heq'⟩
        · exact hall x htl
    · have hstep : pruneDirStep acc hd = acc := by
        unfold pruneDirStep
        rw [if_neg hex]
      rw [hstep]
      exact ih acc

theorem pruneFold_preserves_gone (l : List (Uuid × String))
    (acc : RepoState × List PruneEffect) (d : String)
    (h1 : assocGet acc.1.snapshots d = none)
    (h2 : bmem acc.1.metaFiles d = false) :
    assocGet (l.foldl pruneDirStep acc).1.snapshots d = none
    ∧ bmem (l.foldl pruneDirStep acc).1.metaFiles d = false := by
  induction l generalizing acc with
  | nil => exact ⟨h1, h2⟩
  | cons hd tl ih =>
    rw [List.foldl_cons]
    by_cases hex : dirExists acc.1 hd.2 = true
    · have hstep : pruneDirStep acc hd
          = (removeDirFs acc.1 hd.2, acc.2 ++ [PruneEffect.RemoveDir hd.2]) := by
        unfold pruneDirStep
        rw [if_pos hex]
      rw [hstep]
      exact ih _ (assocGet_filter_none _ _ _ h1) (bmem_filter_false _ _ _ h2)
    · have hstep : pruneDirStep acc hd = acc := by
        unfold pruneDirStep
        rw [if_neg hex]
      rw [hstep]
      exact ih _ h1 h2

theorem pruneFold_removes (l : List (Uuid × String))
    (acc : RepoState × List PruneEffect) (d : String)
    (hd : d ∈ l.map Prod.snd) :
    assocGet (l.foldl pruneDirStep acc).1.snapshots d = none
    ∧ bmem (l.foldl pruneDirStep acc).1.metaFiles d = false := by
  induction l generalizing acc with
  | nil => cases hd
  | cons p tl ih =>
    rw [List.map_cons] at hd
    rw [List.foldl_cons]
    rcases List.mem_cons.mp hd with heq | htl
    · subst heq
      by_cases hex : dirExists acc.1 p.2 = true
      · have hstep : pruneDirStep acc p
            = (removeDirFs acc.1 p.2, acc.2 ++ [PruneEffect.RemoveDir p.2]) := by
          unfold pruneDirStep
          rw [if_pos hex]
        rw [hstep]
        exact pruneFold_preserves_gone tl _ _
          (assocGet_filter_self _ _) (bmem_filter_self _ _)
      · have hstep : pruneDirStep acc p = acc := by
          unfold pruneDirStep
          rw [if_neg hex]
        rw [hstep]
        rw [dirExists, Bool.or_eq_true, not_or] at hex
        obtain ⟨hs, hm⟩ := hex
        rw [Option.not_isSome_iff_eq_none] at hs
        rw [Bool.not_eq_true] at hm
        exact pruneFold_preserves_gone tl _ _ hs hm
    · exact ih _ htl

/-- Counterexample to C4 as stated: on a state with one out-of-window
Created entry whose directory exists, the prune pass removes the on-disk
directory before deleting the metadata row, so the effect trace is not of
the rows-first shape the claim describes. -/
theorem c4_counterexample :
    (prune_created_older_than_days (2 * 86400 * 1000000000) oldState 1).2.2
      = [PruneEffect.RemoveDir "d1", PruneEffect.DeleteRow 5]
    ∧ rowsBeforeDirs
        (prune_created_older_than_days (2 * 86400 * 1000000000) oldState 1).2.2
      = false := by
  exact ⟨by decide, by decide⟩

/-- C4 (amended): prune_created_older_than_days returns 0 and changes
nothing when n ≤ 0; otherwise it removes each doomed on-disk directory
first and then deletes the metadata rows of exactly the Created entries
with created_at earlier than now minus n days, returns their count, and
never removes a Skipped entry or an in-window Created entry. -/
theorem c4_prune_amended (now : Int) (st : RepoState) (m n : Int)
    (hm : m ≤ 0) (hn : 0 < n)
    (hids : (st.backups.map (fun e => e.id)).Nodup) :
    prune_created_older_than_days now st m = (st, 0, [])
    ∧ (prune_created_older_than_days now st n).1.backups
        = st.backups.filter (fun e =>
            ¬ (e.status = BackupStatus.Created
                ∧ e.created_at < now - n * 86400 * 1000000000))
    ∧ (prune_created_older_than_days now st n).2.1
        = (st.backups.filter (fun e =>
            e.status = BackupStatus.Created
              ∧ e.created_at < now - n * 86400 * 1000000000)).length
    ∧ (∀ d ∈ (st.backups.filter (fun e =>
          e.status = BackupStatus.Created
            ∧ e.created_at < now - n * 86400 * 1000000000)).map
            (fun e => e.timestamp_dir),
        assocGet (prune_created_older_than_days now st n).1.snapshots d = none
          ∧ bmem (prune_created_older_than_days now st n).1.metaFiles d = false)
    ∧ ∃ dirEffs, (prune_created_older_than_days now st n).2.2
          = dirEffs ++ (st.backups.filter (fun e =>
              e.status = BackupStatus.Created
                ∧ e.created_at < now - n * 86400 * 1000000000)).map
              (fun e => PruneEffect.DeleteRow e.id)
        ∧ ∀ x ∈ dirEffs, ∃ d, x = PruneEffect.RemoveDir d := by
  have hfirst : prune_created_older_than_days now st m = (st, 0, []) := by
    unfold prune_created_older_than_days
    rw [if_pos hm]
  have hneg : ¬ n ≤ 0 := not_le.mpr hn
  unfold prune_created_older_than_days
  rw [if_pos hm, if_neg hneg]
  dsimp only
  refine ⟨rfl, ?_, ?_, ?_, ?_⟩
  · rw [(pruneFold_frame _ _).1]
    apply List.filter_congr
    intro e he
    by_cases hp : e.status = BackupStatus.Created
        ∧ e.created_at < now - n * 86400 * 1000000000
    · have hmemD : e ∈ st.backups.filter (fun e =>
          e.status = BackupStatus.Created
            ∧ e.created_at < now - n * 86400 * 1000000000) :=
        List.mem_filter.mpr ⟨he, decide_eq_true hp⟩
      have hmemid : e.id ∈ ((st.backups.filter (fun e =>
          e.status = BackupStatus.Created
            ∧ e.created_at < now - n * 86400 * 1000000000)).map
          (fun e => (e.id, e.timestamp_dir))).map Prod.fst := by
        simp only [List.map_map]
        exact List.mem_map.mpr ⟨e, hmemD, rfl⟩
      rw [(bmem_iff _ _).mpr hmemid]
      rw [decide_eq_false (not_not_intro hp)]
      rfl
    · have hnotid : e.id ∉ ((st.backups.filter (fun e =>
          e.status = BackupStatus.Created
            ∧ e.created_at < now - n * 86400 * 1000000000)).map
          (fun e => (e.id, e.timestamp_dir))).map Prod.fst := by
        simp only [List.map_map]
        intro hmem
        obtain ⟨e', he', hide⟩ := List.mem_map.mp hmem
        have he'rows := (List.mem_filter.mp he').1
        have hpe' : e'.status = BackupStatus.Created
            ∧ e'.created_at < now - n * 86400 * 1000000000 :=
          of_decide_eq_true (List.mem_filter.mp he').2
        have : e' = e := List.inj_on_of_nodup_map hids he'rows he hide
        exact hp (this ▸ hpe')
      rw [(bmem_false_iff _ _).mpr hnotid]
      rw [decide_eq_true hp]
      rfl
  · rw [List.length_map]
  · intro d hd
    have hd' : d ∈ ((st.backups.filter (fun e =>
        e.status = BackupStatus.Created
          ∧ e.created_at < now - n * 86400 * 1000000000)).map
        (fun e => (e.id, e.timestamp_dir))).map Prod.snd := by
      simp only [List.map_map]
      exact hd
    exact pruneFold_removes _ (st, []) d hd'
  · obtain ⟨effs, heq, hall⟩ := pruneFold_effects ((st.backups.filter (fun e =>
        e.status = BackupStatus.Created
          ∧ e.created_at < now - n * 86400 * 1000000000)).map
        (fun e => (e.id, e.timestamp_dir))) (st, [])
    refine ⟨effs, ?_, hall⟩
    rw [heq]
    simp [List.map_map]

/-- Witness for C4 (amended) at a concrete state with one out-of-window
Created entry. -/
theorem c4_witness :
    ((0 : Int) ≤ 0 ∧ (0 : Int) < 1
      ∧ (oldState.backups.map (fun e => e.id)).Nodup)
    ∧ prune_created_older_than_days (2 * 86400 * 1000000000) oldState 0
        = (oldState, 0, [])
    ∧ (prune_created_older_than_days (2 * 86400 * 1000000000) oldState 1).1.backups
        = oldState.backups.filter (fun e =>
            ¬ (e.status = BackupStatus.Created
                ∧ e.created_at < 2 * 86400 * 1000000000 - 1 * 86400 * 1000000000))
    ∧ (prune_created_older_than_days (2 * 86400 * 1000000000) oldState 1).2.1
        = (oldState.backups.filter (fun e =>
            e.status = BackupStatus.Created
              ∧ e.created_at < 2 * 86400 * 1000000000 - 1 * 86400 * 1000000000)).length
    ∧ (∀ d ∈ (oldState.backups.filter (fun e =>
          e.status = BackupStatus.Created
            ∧ e.created_at < 2 * 86400 * 1000000000 - 1 * 86400 * 1000000000)).map
            (fun e => e.timestamp_dir),
        assocGet (prune_created_older_than_days
            (2 * 86400 * 1000000000) oldState 1).1.snapshots d = none
          ∧ bmem (prune_created_older_than_days
              (2 * 86400 * 1000000000) oldState 1).1.metaFiles d = false)
    ∧ ∃ dirEffs, (prune_created_older_than_days
            (2 * 86400 * 1000000000) oldState 1).2.2
          = dirEffs ++ (oldState.backups.filter (fun e =>
              e.status = BackupStatus.Created
                ∧ e.created_at < 2 * 86400 * 1000000000 - 1 * 86400 * 1000000000)).map
              (fun e => PruneEffect.DeleteRow e.id)
        ∧ ∀ x ∈ dirEffs, ∃ d, x = PruneEffect.RemoveDir d := by
  have h := c4_prune_amended (2 * 86400 * 1000000000) oldState 0 1
    (by decide) (by decide) (by decide)
  exact ⟨⟨by decide, by decide, by decide⟩, h.1, h.2.1, h.2.2.1, h.2.2.2.1,
    h.2.2.2.2⟩

/-- Counterexample to C2 as stated: on a collection whose dedicated deck
table is present and well-formed but whose legacy col table is absent,
extract_stats errors even though the deck-table resolution the claim
describes (modelled by spec_extract_stats) succeeds — the code never
consults the deck table. -/
theorem c2_counterexample :
    dbModern.deckTable = some [(1, "A")]
    ∧ (extract_stats dbModern).isOk = false
    ∧ (spec_extract_stats dbModern).isOk = true := by
  exact ⟨rfl, by decide, by decide⟩

/-- C2 (amended): extract_stats resolves deck names solely by parsing the
JSON decks column of the legacy col table; the dedicated deck table is
never consulted (the result is invariant under replacing it), and the
extraction errors exactly when the col-decks query fails or the column is
not a JSON object. -/
theorem c2_deck_names_legacy_only (db : CollectionDb)
    (dt : Option (List (Int × String))) :
    extract_stats { db with deckTable := dt } = extract_stats db
    ∧ ((extract_stats db).isOk = false ↔
        db.colDecks = none ∨ db.colDecks = some DecksJson.notObject) := by
  constructor
  · rfl
  · unfold extract_stats
    cases hcd : db.colDecks with
    | none => simp [Except.isOk, Except.toBool]
    | some dj =>
      cases dj with
      | notObject => simp [parse_deck_names, Except.isOk, Except.toBool]
      | object entries => simp [parse_deck_names, Except.isOk, Except.toBool]

/-- C8: the sync client disables automatic redirect following; when the
first response to a sync POST is a redirection carrying a Location header,
sync_request strips the trailing slash from that header to obtain the new
base and reissues the identical POST (same compressed body, header
re-serialized from the same value) against {new_base}/sync/{method}; and
every sync_request issues at most two HTTP requests, i.e. follows at most
one redirect. -/
theorem c8_sync_redirect_handling (serializeHeader : SyncHeader → String)
    (compress decompress : Bytes → Bytes) (net : HttpRequest → HttpResponse)
    (endpoint method hkey sessionKey : String) (body : Bytes)
    (req₁ : HttpRequest) (loc : String)
    (hreq : req₁ = ⟨trimEndSlashes endpoint ++ "/sync/" ++ method,
      serializeHeader ⟨SYNC_VERSION, hkey, CLIENT_VERSION_SHORT, sessionKey⟩,
      compress body⟩)
    (hred : isRedirection (net req₁).status = true)
    (hloc : (net req₁).location = some loc) :
    sync_client_redirect_policy = RedirectPolicy.noFollow
    ∧ (sync_request serializeHeader compress decompress net endpoint method
        hkey sessionKey body).requests
      = [req₁, ⟨trimEndSlashes loc ++ "/sync/" ++ method,
                req₁.headerJson, req₁.body⟩]
    ∧ ∀ (ep m hk sk : String) (b : Bytes),
        (sync_request serializeHeader compress decompress net ep m hk sk
          b).requests.length ≤ 2 := by
  refine ⟨rfl, ?_, ?_⟩
  · unfold sync_request
    dsimp only
    rw [← hreq, if_pos hred, hloc]
    dsimp only
    rw [hreq]
  · intro ep m hk sk b
    unfold sync_request
    dsimp only
    by_cases hr : isRedirection (net ⟨trimEndSlashes ep ++ "/sync/" ++ m,
        serializeHeader ⟨SYNC_VERSION, hk, CLIENT_VERSION_SHORT, sk⟩,
        compress b⟩).status = true
    · rw [if_pos hr]
      cases hl : (net ⟨trimEndSlashes ep ++ "/sync/" ++ m,
          serializeHeader ⟨SYNC_VERSION, hk, CLIENT_VERSION_SHORT, sk⟩,
          compress b⟩).location with
      | none =>
        dsimp only
        simp
      | some l =>
        dsimp only
        simp
    · rw [if_neg hr]
      dsimp only
      simp

/-- Witness for C8 at a concrete serializer, identity codec and a network
whose meta URL answers with a 308 redirect to a shard. -/
theorem c8_witness :
    (wReq1 = ⟨trimEndSlashes "https://sync.ankiweb.net/" ++ "/sync/" ++ "meta",
        wHeaderSer ⟨SYNC_VERSION, "k", CLIENT_VERSION_SHORT, "s"⟩,
        (fun b => b : Bytes → Bytes) []⟩
      ∧ isRedirection (wNet wReq1).status = true
      ∧ (wNet wReq1).location = some "https://sync32.ankiweb.net/")
    ∧ sync_client_redirect_policy = RedirectPolicy.noFollow
    ∧ (sync_request wHeaderSer (fun b => b) (fun b => b) wNet
        "https://sync.ankiweb.net/" "meta" "k" "s" []).requests
      = [wReq1, ⟨trimEndSlashes "https://sync32.ankiweb.net/" ++ "/sync/" ++ "meta",
                 wReq1.headerJson, wReq1.body⟩]
    ∧ ∀ (ep m hk sk : String) (b : Bytes),
        (sync_request wHeaderSer (fun b => b) (fun b => b) wNet ep m hk sk
          b).requests.length ≤ 2 := by
  have h := c8_sync_redirect_handling wHeaderSer (fun b => b) (fun b => b)
    wNet "https://sync.ankiweb.net/" "meta" "k" "s" [] wReq1
    "https://sync32.ankiweb.net/" (by decide) (by decide) (by decide)
  exact ⟨⟨by decide, by decide, by decide⟩, h.1, h.2.1, h.2.2⟩

/-- C10: decoding a stored backup row is total on the id, created_at,
status and skip_reason columns — an unparsable id decodes to the nil uuid,
an unparsable created_at to the current time, a status other than
case-insensitive "skipped" to Created, and any non-null skip_reason to
Unchanged — and the decode errors exactly when stats_json is present and
malformed. -/
theorem c10_row_decode_total (uuidParse : String → Option Uuid)
    (rfcParse : String → Option Int) (statsParse : String → Option BackupStats)
    (now : Int) (row : RawRow) (r : String)
    (hbadId : uuidParse row.id = none)
    (hbadTs : rfcParse row.created_at = none)
    (hbadStatus : eqIgnoreAsciiCase row.status "skipped" = false)
    (hsr : row.skip_reason = some r) :
    ((row_to_entry uuidParse rfcParse statsParse now row).isOk = false
      ↔ ∃ s, row.stats_json = some s ∧ statsParse s = none)
    ∧ ∀ e, row_to_entry uuidParse rfcParse statsParse now row = Except.ok e →
        e.id = Uuid.nilValue ∧ e.created_at = now
          ∧ e.status = BackupStatus.Created
          ∧ e.skip_reason = some BackupSkipReason.Unchanged := by
  unfold row_to_entry
  cases hsj : row.stats_json with
  | none =>
    dsimp only
    constructor
    · simp [Except.isOk, Except.toBool]
    · intro e he
      obtain rfl := (Except.ok.injEq _ _).mp he.symm
      refine ⟨?_, ?_, ?_, ?_⟩
      · unfold parse_uuid
        rw [hbadId]
        rfl
      · unfold parse_ts
        rw [hbadTs]
        rfl
      · unfold parse_status
        rw [hbadStatus]
        rfl
      · rw [hsr]
        rfl
  | some raw =>
    dsimp only
    cases hps : statsParse raw with
    | none =>
      dsimp only
      constructor
      · simp only [Except.isOk, Except.toBool]
        constructor
        · intro _
          exact ⟨raw, rfl, hps⟩
        · intro _
          trivial
      · intro e he
        exact absurd he (by simp)
    | some v =>
      dsimp only
      constructor
      · simp only [Except.isOk, Except.toBool]
        constructor
        · intro h
          exact absurd h (by simp)
        · rintro ⟨s, hs, hpn⟩
          obtain rfl := (Option.some.injEq _ _).mp hs
          rw [hps] at hpn
          exact absurd hpn (by simp)
      · intro e he
        obtain rfl := (Except.ok.injEq _ _).mp he.symm
        refine ⟨?_, ?_, ?_, ?_⟩
        · unfold parse_uuid
          rw [hbadId]
          rfl
        · unfold parse_ts
          rw [hbadTs]
          rfl
        · unfold parse_status
          rw [hbadStatus]
          rfl
        · rw [hsr]
          rfl

/-- Witness for C10 at a concrete malformed row with parsers that reject
its id, created_at and stats_json. -/
theorem c10_witness :
    ((fun _ : String => (none : Option Uuid)) badRow.id = none
      ∧ (fun _ : String => (none : Option Int)) badRow.created_at = none
      ∧ eqIgnoreAsciiCase badRow.status "skipped" = false
      ∧ badRow.skip_reason = some "xyz")
    ∧ (((row_to_entry (fun _ => none) (fun _ => none) (fun _ => none) 99
          badRow).isOk = false
        ↔ ∃ s, badRow.stats_json = some s
            ∧ (fun _ : String => (none : Option BackupStats)) s = none)
      ∧ ∀ e, row_to_entry (fun _ => none) (fun _ => none) (fun _ => none) 99
            badRow = Except.ok e →
          e.id = Uuid.nilValue ∧ e.created_at = 99
            ∧ e.status = BackupStatus.Created
            ∧ e.skip_reason = some BackupSkipReason.Unchanged) :=
  ⟨⟨rfl, rfl, by decide, by decide⟩,
    c10_row_decode_total (fun _ => none) (fun _ => none) (fun _ => none) 99
      badRow "xyz" rfl rfl (by decide) (by decide)⟩

end AnkiBackup
